import Mathlib

/-!
# Round-robin selector of `app/task/script/balance.go`

A shallow embedding of the selector of package `script` and of the parts of
`go-micro.dev/v4` (`registry`, `registry/cache`, `selector`) that it calls, followed by
theorems about rotation, error classification, option handling and the shared counter.

Conventions of the embedding:

* the package-level counter `i` (a `*uint64`) is a natural number that every selection
  function receives and returns; arithmetic on it is reduced modulo `2^64`;
* a Go `error` is a value of `GoError`, `nil` is `none`;
* a nil-interface dereference (a panic) is the outer `none` of a lookup;
* the mutexes `mtx` and `RoundRobin.mu` are not represented: every function below is one
  sequential call.
-/

namespace Script

/-! ## `go-micro.dev/v4/registry` -/

/-- Model of `registry.Node`: one addressable endpoint. -/
structure Node where
  Id : String
  Address : String
deriving DecidableEq, Repr

/-- Model of `registry.Service`: one registered instance with its ordered nodes. -/
structure Service where
  Name : String
  Version : String
  Nodes : List Node
deriving DecidableEq, Repr

/-- Go error values met by the selector: the three sentinels, any other error created with
`errors.New`, and an error wrapping another one (`fmt.Errorf` with `%w`). -/
inductive GoError where
  | registryErrNotFound
  | selectorErrNotFound
  | selectorErrNoneAvailable
  | other (msg : String)
  | wrap (msg : String) (inner : GoError)
deriving DecidableEq, Repr

/-- Model of `errors.Is(err, target)` for a sentinel target: `err` is the target or wraps it. -/
def errorsIs : GoError → GoError → Bool
  | GoError.wrap msg inner, target =>
      decide (GoError.wrap msg inner = target) || errorsIs inner target
  | err, target => decide (err = target)

/-- Model of the `registry.Registry` interface, restricted to `GetService`. -/
structure Registry where
  Name : String
  GetService : String → Except GoError (List Service)

/-! ## `go-micro.dev/v4/selector` -/

/-- Result of one invocation of a `selector.Next`: the node, the error and the value of the
package-level counter `i` after the call. -/
structure NextResult where
  node : Option Node
  err : Option GoError
  i : Nat
deriving DecidableEq, Repr

/-- Model of `selector.Next`: a function of the current value of the counter `i`. -/
abbrev Next := Nat → NextResult

/-- Model of `selector.Strategy`. -/
abbrev Strategy := List Service → Next

/-- Model of `selector.Filter`. -/
abbrev Filter := List Service → List Service

/-- Values stored in a `context.Context` under a key. -/
inductive CtxValue where
  | duration (d : Int)
  | text (s : String)
deriving DecidableEq, Repr

/-- Model of `context.Context`, restricted to `Value`. -/
abbrev Context := String → Option CtxValue

/-- Model of `selector.Options`. -/
structure Options where
  Registry : Option Registry
  Strategy : Strategy
  Context : Option Context

/-- Model of `selector.Option`, a mutator of `Options`. -/
abbrev SelectorOption := Options → Options

/-- Model of `selector.SelectOptions`. -/
structure SelectOptions where
  Filters : List Filter
  Strategy : Strategy

/-- Model of `selector.SelectOption`, a mutator of `SelectOptions`. -/
abbrev SelectOption := SelectOptions → SelectOptions

/-- Model of `selector.WithFilter`: appends the filters to the per-call list. -/
def WithFilter (fn : List Filter) : SelectOption :=
  fun o => { o with Filters := o.Filters ++ fn }

/-- Model of `selector.WithStrategy`: sets the per-call strategy. -/
def WithStrategy (fn : Strategy) : SelectOption :=
  fun o => { o with Strategy := fn }

/-- Model of `selector.SetStrategy`: sets the configured strategy. -/
def SetStrategy (fn : Strategy) : SelectorOption :=
  fun o => { o with Strategy := fn }

/-- Model of `selector.Registry`: sets the configured registry. -/
def SetRegistry (r : Registry) : SelectorOption :=
  fun o => { o with Registry := some r }

/-! ## `go-micro.dev/v4/registry/cache` -/

/-- Model of `cache.DefaultTTL` (one minute, in nanoseconds). -/
def DefaultTTL : Int := 60000000000

/-- Model of the registry cache of `registry/cache`: the wrapped registry (possibly the nil
interface), the time-to-live, the stored instance lists (`cache`, the empty list for a name
without entry), for every name whether the deadline stored in `ttls` is set and has not
passed at the time of the call (`live`), the error status kept while stale entries are
served, and whether the cache was stopped. -/
structure Cache where
  Registry : Option Registry
  TTL : Int
  stopped : Bool
  cache : String → List Service
  live : String → Bool
  status : Option GoError

/-- Model of `cache.Option`. -/
abbrev CacheOption := Cache → Cache

/-- Model of `cache.WithTTL`. -/
def WithTTL (t : Int) : CacheOption :=
  fun rc => { rc with TTL := t }

/-- Model of `cache.New`: no entry, default options, then the given options in order. -/
def cacheNew (r : Option Registry) (opts : List CacheOption) : Cache :=
  opts.foldl (fun rc o => o rc)
    { Registry := r, TTL := DefaultTTL, stopped := false,
      cache := fun _ => [], live := fun _ => false, status := none }

/-- Model of the cache's `isValid` on the entry of a name: there are stored instances and
their deadline is set and has not passed. -/
def Cache.isValid (rc : Cache) (service : String) : Bool :=
  if (rc.cache service).length = 0 then false
  else if rc.live service then true
  else false

/-- Model of the cache's `get`: a valid entry is returned as is; otherwise the registry is
asked, and when it fails a stale entry, if there is one, is returned with a nil error. The
outer `none` is the panic of calling through a nil registry. -/
def Cache.get (rc : Cache) (service : String) : Option (Except GoError (List Service)) :=
  if rc.isValid service then some (Except.ok (rc.cache service))
  else
    match rc.Registry with
    | none => none
    | some r =>
      match r.GetService service with
      | Except.error err =>
        if (rc.cache service).length > 0 then some (Except.ok (rc.cache service))
        else some (Except.error err)
      | Except.ok services => some (Except.ok services)

/-- Model of `Cache.GetService`: the answer of `get`, with an empty instance list turned
into `registry.ErrNotFound`. -/
def Cache.GetService (rc : Cache) (service : String) :
    Option (Except GoError (List Service)) :=
  match rc.get service with
  | none => none
  | some (Except.error err) => some (Except.error err)
  | some (Except.ok services) =>
    if services.length = 0 then some (Except.error GoError.registryErrNotFound)
    else some (Except.ok services)

/-- The cache after `GetService`: a successful answer of the registry is stored with the
deadline now plus the time-to-live and clears the status; a failure answered from a stale
entry records the error as status; a valid entry, a failure without entry and a panic leave
the cache as it was. The later passing of the deadline is not a transition of this model. -/
def Cache.afterGetService (rc : Cache) (service : String) : Cache :=
  if rc.isValid service then rc
  else
    match rc.Registry with
    | none => rc
    | some r =>
      match r.GetService service with
      | Except.error err =>
        if (rc.cache service).length > 0 then { rc with status := some err } else rc
      | Except.ok services =>
        { rc with
          status := none
          cache := fun name => if name = service then services else rc.cache name
          live := fun name => if name = service then decide (0 ≤ rc.TTL) else rc.live name }

/-- Model of `Cache.Stop`. -/
def Cache.Stop (rc : Cache) : Cache :=
  { rc with stopped := true }

/-! ## Package `script` -/

/-- The loop of `TongRound` that appends every service's nodes to `nodes`. -/
def flattenNodes (services : List Service) : List Node :=
  services.foldl (fun nodes service => nodes ++ service.Nodes) []

/-- Embedding of `TongRound`: the returned closure captures the flattened node list and,
given the counter, answers with `nodes[i % len(nodes)]` and the incremented counter. -/
def TongRound (services : List Service) : Next :=
  let nodes := flattenNodes services
  fun i =>
    if nodes.length = 0 then
      { node := none, err := some GoError.selectorErrNoneAvailable, i := i }
    else
      { node := nodes[i % nodes.length]?, err := none, i := (i + 1) % 2 ^ 64 }

/-- Embedding of the struct `RoundRobin` (without its lock). -/
structure RoundRobin where
  i : Nat
  so : Options
  rc : Cache

/-- Embedding of `RoundRobin.newCache`. -/
def RoundRobin.newCache (c : RoundRobin) : Cache :=
  let opts : List CacheOption :=
    match c.so.Context with
    | none => []
    | some ctx =>
      match ctx "selector_ttl" with
      | some (CtxValue.duration t) => [WithTTL t]
      | _ => []
  cacheNew c.so.Registry opts

/-- Embedding of `NewRoundRobinSelector`; `DefaultRegistry` stands for
`registry.DefaultRegistry`. -/
def NewRoundRobinSelector (DefaultRegistry : Registry) (opts : List SelectorOption) :
    RoundRobin :=
  let sopts : Options := { Registry := none, Strategy := TongRound, Context := none }
  let sopts := opts.foldl (fun (so : Options) (opt : SelectorOption) => opt so) sopts
  let sopts :=
    if sopts.Registry.isNone then { sopts with Registry := some DefaultRegistry } else sopts
  let s : RoundRobin :=
    { i := 0, so := sopts,
      rc := { Registry := none, TTL := 0, stopped := false, cache := fun _ => [],
              live := fun _ => false, status := none } }
  { s with rc := s.newCache }

/-- Embedding of `RoundRobin.Init`: the new receiver and the returned error. -/
def RoundRobin.Init (c : RoundRobin) (opts : List SelectorOption) :
    RoundRobin × Option GoError :=
  let so : Script.Options := opts.foldl (fun so o => o so) c.so
  let c := { c with so := so }
  let c := { c with rc := c.rc.Stop }
  let c := { c with rc := c.newCache }
  (c, none)

/-- Ghost record of a callback that `Select` applied: the filter at a position of
`sopts.Filters`, or the strategy. -/
inductive Applied where
  | filter (k : Nat)
  | strategy
deriving DecidableEq, Repr

/-- Result of `Select`: the returned function, the returned error, and the ghost record of
the callbacks applied during the call, in order. -/
structure SelectResult where
  next : Option Next
  err : Option GoError
  applied : List Applied

/-- The per-call options of `Select`: the configured strategy, then every option in order. -/
def RoundRobin.selectOptions (c : RoundRobin) (opts : List SelectOption) : SelectOptions :=
  opts.foldl (fun sopts opt => opt sopts) { Filters := [], Strategy := c.so.Strategy }

/-- The filter loop of `Select`, with the ghost record of the filters applied. -/
def applyFilters (filters : List Filter) (services : List Service) :
    List Service × List Applied :=
  filters.foldl
    (fun st filter => (filter st.1, st.2 ++ [Applied.filter st.2.length])) (services, [])

/-- Embedding of `RoundRobin.Select`; the outer `none` is a panic of the cache lookup. The
cache of the receiver after the call is `c.rc.afterGetService service`. -/
def RoundRobin.Select (c : RoundRobin) (service : String) (opts : List SelectOption) :
    Option SelectResult :=
  let sopts := c.selectOptions opts
  match c.rc.GetService service with
  | none => none
  | some (Except.error err) =>
    if errorsIs err GoError.registryErrNotFound then
      some { next := none, err := some GoError.selectorErrNotFound, applied := [] }
    else
      some { next := none, err := some err, applied := [] }
  | some (Except.ok services) =>
    let st := applyFilters sopts.Filters services
    if st.1.length = 0 then
      some { next := none, err := some GoError.selectorErrNoneAvailable, applied := st.2 }
    else
      some { next := some (sopts.Strategy st.1), err := none,
             applied := st.2 ++ [Applied.strategy] }

/-- Embedding of `RoundRobin.Mark`: an empty body. -/
def RoundRobin.Mark (c : RoundRobin) (_service : String) (_node : Option Node)
    (_err : Option GoError) : RoundRobin :=
  c

/-- Embedding of `RoundRobin.Reset`: an empty body. -/
def RoundRobin.Reset (c : RoundRobin) (_service : String) : RoundRobin :=
  c

/-- Embedding of `RoundRobin.Close`: the new receiver and the returned error. -/
def RoundRobin.Close (c : RoundRobin) : RoundRobin × Option GoError :=
  ({ c with rc := c.rc.Stop }, none)

/-- Embedding of `RoundRobin.Options`. -/
def RoundRobin.Options (c : RoundRobin) : Script.Options :=
  c.so

/-- Embedding of `RoundRobin.String`. -/
def RoundRobin.String (_c : RoundRobin) : String :=
  "registry"

/-! ## Sequential runs -/

/-- The results of `n` sequential invocations of one selection function, started with the
counter at `i`; every invocation receives the counter left by the one before it. -/
def invokeN (next : Next) : Nat → Nat → List NextResult
  | 0, _ => []
  | n + 1, i => next i :: invokeN next n (next i).i

/-- The results of `n` rounds of strict alternation between two selection functions: in
every round `p` is invoked, then `q`. -/
def alternate (p q : Next) : Nat → Nat → List (NextResult × NextResult)
  | 0, _ => []
  | n + 1, i => (p i, q (p i).i) :: alternate p q n (q (p i).i).i

/-! ## Scenario data -/

/-- Node `n1` of the "orders" scenario. -/
def n1 : Node := { Id := "n1", Address := "10.0.0.1:8080" }

/-- Node `n2` of the "orders" scenario. -/
def n2 : Node := { Id := "n2", Address := "10.0.0.2:8080" }

/-- Node `n3` of the "orders" scenario. -/
def n3 : Node := { Id := "n3", Address := "10.0.0.3:8080" }

/-- Instance A of service "orders". -/
def instA : Service := { Name := "orders", Version := "A", Nodes := [n1, n2] }

/-- Instance B of service "orders". -/
def instB : Service := { Name := "orders", Version := "B", Nodes := [n3] }

/-- An instance without nodes. -/
def instEmpty : Service := { Name := "billing", Version := "A", Nodes := [] }

/-- An instance of service "payments" with two nodes. -/
def instP : Service := { Name := "payments", Version := "A", Nodes := [n3, n2] }

/-- A registry for the scenarios: "orders" has instances A and B, "billing" is registered
with zero instances, "ghost" has one instance without nodes, "down" fails with a transport
error, and any other name is reported as not found by a wrapped sentinel. -/
def scenarioRegistry : Registry :=
  { Name := "scenario",
    GetService := fun service =>
      if service = "orders" then Except.ok [instA, instB]
      else if service = "billing" then Except.ok []
      else if service = "ghost" then Except.ok [instEmpty]
      else if service = "down" then Except.error (GoError.other "connection refused")
      else Except.error (GoError.wrap "lookup" GoError.registryErrNotFound) }

/-- A second registry, used to tell a configured registry from the default one. -/
def otherRegistry : Registry :=
  { Name := "other", GetService := fun _ => Except.error GoError.registryErrNotFound }

/-- A filter keeping the instances of version "B". -/
def filterVersionB : Filter :=
  fun services => services.filter (fun s => s.Version = "B")

/-- A strategy that always answers with the first node of the first instance and never
touches the counter. -/
def FirstNode : Strategy :=
  fun services i =>
    match services with
    | [] => { node := none, err := some GoError.selectorErrNoneAvailable, i := i }
    | s :: _ => { node := s.Nodes.head?, err := none, i := i }

/-! ## Operations as transitions -/

/-- The state the operations act on: the package-level counter `i` and one selector. -/
structure World where
  i : Nat
  c : RoundRobin

/-- The operations of the package: the selector's methods, the construction of a selection
function by `TongRound`, and one invocation of a selection function built by `TongRound`. -/
inductive Op where
  | new (DefaultRegistry : Registry) (opts : List SelectorOption)
  | init (opts : List SelectorOption)
  | options
  | select (service : String) (opts : List SelectOption)
  | mark (service : String) (node : Option Node) (err : Option GoError)
  | reset (service : String)
  | close
  | string
  | tongRound (services : List Service)
  | invoke (services : List Service)

/-- What an operation hands back to its caller. -/
inductive Ret where
  | unit
  | selector
  | error (err : Option GoError)
  | options (so : Options)
  | selected (r : Option SelectResult)
  | text (s : String)
  | next (f : Next)
  | node (node : Option Node) (err : Option GoError)

/-- One operation run on a state: the state after it and the value returned. -/
def step : Op → World → World × Ret
  | Op.new DefaultRegistry opts, w =>
      ({ w with c := NewRoundRobinSelector DefaultRegistry opts }, Ret.selector)
  | Op.init opts, w => ({ w with c := (w.c.Init opts).1 }, Ret.error (w.c.Init opts).2)
  | Op.options, w => (w, Ret.options w.c.Options)
  | Op.select service opts, w =>
      ({ w with c := { w.c with rc := w.c.rc.afterGetService service } },
        Ret.selected (w.c.Select service opts))
  | Op.mark service node err, w => ({ w with c := w.c.Mark service node err }, Ret.unit)
  | Op.reset service, w => ({ w with c := w.c.Reset service }, Ret.unit)
  | Op.close, w => ({ w with c := w.c.Close.1 }, Ret.error w.c.Close.2)
  | Op.string, w => (w, Ret.text w.c.String)
  | Op.tongRound services, w => (w, Ret.next (TongRound services))
  | Op.invoke services, w =>
      ({ w with i := (TongRound services w.i).i },
        Ret.node (TongRound services w.i).node (TongRound services w.i).err)

/-- The selector of the scenarios: built with no option, with `scenarioRegistry` standing
for the default registry. -/
def scenarioSelector : RoundRobin :=
  NewRoundRobinSelector scenarioRegistry []

/-- A state whose counter holds the largest 64-bit value. -/
def wrapWorld : World :=
  { i := 2 ^ 64 - 1, c := scenarioSelector }

/-! ## Lemmas on the node pool and on runs -/

theorem foldl_append_nodes (services : List Service) (acc : List Node) :
    services.foldl (fun nodes service => nodes ++ service.Nodes) acc
      = acc ++ (services.map Service.Nodes).flatten := by
  induction services generalizing acc with
  | nil => simp
  | cons s rest ih => simp [ih]

theorem flattenNodes_eq_flatten (services : List Service) :
    flattenNodes services = (services.map Service.Nodes).flatten := by
  simp [flattenNodes, foldl_append_nodes]

theorem tongRound_empty (services : List Service) (i : Nat)
    (h : (flattenNodes services).length = 0) :
    TongRound services i
      = { node := none, err := some GoError.selectorErrNoneAvailable, i := i } := by
  simp [TongRound, h]

theorem tongRound_nonempty (services : List Service) (i : Nat)
    (h : 0 < (flattenNodes services).length) :
    TongRound services i
      = { node := some ((flattenNodes services).get
                    ⟨i % (flattenNodes services).length, Nat.mod_lt i h⟩),
          err := none, i := (i + 1) % 2 ^ 64 } := by
  have hne : ¬ (flattenNodes services).length = 0 := by omega
  have hlt : i % (flattenNodes services).length < (flattenNodes services).length :=
    Nat.mod_lt i h
  simp only [TongRound, if_neg hne, List.getElem?_eq_getElem hlt, List.get_eq_getElem]

theorem tongRound_nonempty_lookup (services : List Service) (i : Nat)
    (h : 0 < (flattenNodes services).length) :
    TongRound services i
      = { node := (flattenNodes services)[i % (flattenNodes services).length]?,
          err := none, i := (i + 1) % 2 ^ 64 } := by
  have hne : ¬ (flattenNodes services).length = 0 := by omega
  simp only [TongRound, if_neg hne]

theorem invokeN_tongRound (services : List Service) (h : 0 < (flattenNodes services).length)
    (n i : Nat) (hi : i < 2 ^ 64) :
    invokeN (TongRound services) n i
      = (List.range n).map (fun j =>
          ({ node := (flattenNodes services)[(i + j) % 2 ^ 64
                        % (flattenNodes services).length]?,
             err := none, i := (i + j + 1) % 2 ^ 64 } : NextResult)) := by
  induction n generalizing i with
  | zero => simp [invokeN]
  | succ n ih =>
    have hlt : (i + 1) % 2 ^ 64 < 2 ^ 64 := Nat.mod_lt _ (by norm_num)
    rw [invokeN, tongRound_nonempty_lookup services i h, ih _ hlt,
      List.range_succ_eq_map, List.map_cons, List.map_map]
    have hi2 : i % 18446744073709551616 = i := Nat.mod_eq_of_lt (by simpa using hi)
    simp only [Function.comp_def, List.map_cons, List.cons.injEq, NextResult.mk.injEq,
      Nat.add_zero, true_and, List.map_inj_left, Nat.reducePow, hi2, Nat.succ_eq_add_one]
    refine fun a _ => ⟨?_, ?_⟩
    · have : ((i + 1) % 18446744073709551616 + a) % 18446744073709551616
          = (i + (a + 1)) % 18446744073709551616 := by omega
      rw [this]
    · omega

theorem alternate_pools_of_two (P Q : List Service)
    (hP : (flattenNodes P).length = 2) (hQ : (flattenNodes Q).length = 2)
    (n c : Nat) (hc : c < 2 ^ 64) (heven : c % 2 = 0) :
    ∀ r ∈ alternate (TongRound P) (TongRound Q) n c,
      r.1.node = (flattenNodes P)[0]? ∧ r.2.node = (flattenNodes Q)[1]? := by
  induction n generalizing c with
  | zero => simp [alternate]
  | succ n ih =>
    have hP0 : 0 < (flattenNodes P).length := by omega
    have hQ0 : 0 < (flattenNodes Q).length := by omega
    have hc2 : c < 18446744073709551616 := by simpa using hc
    have hq : (c + 1) % 18446744073709551616 % 2 = 1 := by omega
    have hnext : ((c + 1) % 18446744073709551616 + 1) % 18446744073709551616 < 2 ^ 64 := by
      norm_num; omega
    have hnext2 : ((c + 1) % 18446744073709551616 + 1) % 18446744073709551616 % 2 = 0 := by
      omega
    intro r hr
    simp only [alternate, tongRound_nonempty_lookup P _ hP0,
      tongRound_nonempty_lookup Q _ hQ0, hP, hQ, Nat.reducePow, heven, hq,
      List.mem_cons] at hr
    rcases hr with hr | hr
    · subst hr; exact ⟨rfl, rfl⟩
    · exact ih _ hnext hnext2 r hr

/-! ## Theorems on the round-robin strategy -/

/-- C1, as stated, is false: with the three-node pool of instances A and B and the counter
at `2^64 - 1`, two sequential invocations both return the node at index 0, so no starting
value `k0` makes the returned nodes the ones at indices `k0 mod 3` and `(k0+1) mod 3`. -/
theorem tongRound_rotation_fails_at_wrap :
    ¬ ∃ k0 : Nat,
      (invokeN (TongRound [instA, instB]) 2 (2 ^ 64 - 1)).map NextResult.node
        = (List.range 2).map (fun j =>
            (flattenNodes [instA, instB])[(k0 + j) % (flattenNodes [instA, instB]).length]?) := by
  rintro ⟨k0, h⟩
  have hpool : flattenNodes [instA, instB] = [n1, n2, n3] := rfl
  have hrun : (invokeN (TongRound [instA, instB]) 2 (2 ^ 64 - 1)).map NextResult.node
      = [some n1, some n1] := by
    simp [invokeN, tongRound_nonempty_lookup, hpool]
  rw [hrun, hpool] at h
  have hcases : k0 % 3 = 0 ∨ k0 % 3 = 1 ∨ k0 % 3 = 2 := by omega
  rcases hcases with h0 | h0 | h0
  · have h1 : (k0 + 1) % 3 = 1 := by omega
    simp [List.range_succ_eq_map, h0, h1, n1, n2] at h
  · have h1 : (k0 + 1) % 3 = 2 := by omega
    simp [List.range_succ_eq_map, h0, h1, n1, n2] at h
  · have h1 : (k0 + 1) % 3 = 0 := by omega
    simp [List.range_succ_eq_map, h0, h1, n1, n3] at h

/-- C1, amended: for every pool of `N ≥ 1` nodes, every counter value `c0 < 2^64` and every
number `C` of sequential invocations such that the counter does not wrap during them
(`c0 + C ≤ 2^64`) or `N` divides `2^64`, invocation number `j` returns the node at pool
index `(c0 + j) mod N` with no error and leaves the counter at `(c0 + j + 1) mod 2^64`. -/
theorem tongRound_rotates_without_wrap (services : List Service) (c0 C : Nat)
    (hN : 1 ≤ (flattenNodes services).length) (hc : c0 < 2 ^ 64)
    (hw : c0 + C ≤ 2 ^ 64 ∨ (flattenNodes services).length ∣ 2 ^ 64) :
    invokeN (TongRound services) C c0
      = (List.range C).map (fun j =>
          ({ node := some ((flattenNodes services).get
                      ⟨(c0 + j) % (flattenNodes services).length, Nat.mod_lt _ hN⟩),
             err := none, i := (c0 + j + 1) % 2 ^ 64 } : NextResult)) := by
  rw [invokeN_tongRound services hN C c0 hc]
  apply List.map_congr_left
  intro j hj
  have hjC : j < C := List.mem_range.mp hj
  have hidx : (c0 + j) % 2 ^ 64 % (flattenNodes services).length
      = (c0 + j) % (flattenNodes services).length := by
    rcases hw with hw | hw
    · have hsmall : (c0 + j) % 2 ^ 64 = c0 + j := Nat.mod_eq_of_lt (by omega)
      rw [hsmall]
    · exact Nat.mod_mod_of_dvd _ hw
  have hlt : (c0 + j) % (flattenNodes services).length < (flattenNodes services).length :=
    Nat.mod_lt _ hN
  rw [hidx, List.getElem?_eq_getElem hlt, List.get_eq_getElem]

/-- Witness of C1 amended: three invocations over the pool of instances A and B from the
counter `2^64 - 3`, which reach the last counter value without wrapping. -/
theorem tongRound_rotates_without_wrap_witness :
    invokeN (TongRound [instA, instB]) 3 (2 ^ 64 - 3)
      = (List.range 3).map (fun j =>
          ({ node := some ((flattenNodes [instA, instB]).get
                      ⟨(2 ^ 64 - 3 + j) % (flattenNodes [instA, instB]).length,
                        Nat.mod_lt _ (by decide)⟩),
             err := none, i := (2 ^ 64 - 3 + j + 1) % 2 ^ 64 } : NextResult)) :=
  tongRound_rotates_without_wrap [instA, instB] (2 ^ 64 - 3) 3 (by decide) (by norm_num)
    (Or.inl (by norm_num))

/-- C2: for every instance list whose concatenated node pool is non-empty and every counter
value `c`, the function returned by `TongRound` answers with the node at index
`c mod len(pool)` of the pool and no error, where the pool built by the code is the
concatenation of the instances' node lists in instance order. -/
theorem tongRound_returns_pool_at_counter (services : List Service) (c : Nat)
    (h : (services.map Service.Nodes).flatten ≠ []) :
    flattenNodes services = (services.map Service.Nodes).flatten ∧
    TongRound services c
      = { node := some ((services.map Service.Nodes).flatten.get
                    ⟨c % (services.map Service.Nodes).flatten.length,
                      Nat.mod_lt c (List.length_pos.mpr h)⟩),
          err := none, i := (c + 1) % 2 ^ 64 } := by
  refine ⟨flattenNodes_eq_flatten services, ?_⟩
  have hpos : 0 < (flattenNodes services).length := by
    rw [flattenNodes_eq_flatten]; exact List.length_pos.mpr h
  have hlt : c % (services.map Service.Nodes).flatten.length
      < (services.map Service.Nodes).flatten.length := Nat.mod_lt c (List.length_pos.mpr h)
  rw [tongRound_nonempty_lookup services c hpos]
  simp only [flattenNodes_eq_flatten, List.getElem?_eq_getElem hlt, List.get_eq_getElem]

/-- Witness of C2: instances A=[n1,n2] and B=[n3] with the counter at 5, 6 and 7 give n3,
n1 and n2. -/
theorem tongRound_returns_pool_at_counter_witness :
    ([instA, instB].map Service.Nodes).flatten = [n1, n2, n3] ∧
    TongRound [instA, instB] 5 = { node := some n3, err := none, i := 6 } ∧
    TongRound [instA, instB] 6 = { node := some n1, err := none, i := 7 } ∧
    TongRound [instA, instB] 7 = { node := some n2, err := none, i := 8 } :=
  ⟨rfl,
   (tongRound_returns_pool_at_counter [instA, instB] 5 (by decide)).2.trans rfl,
   (tongRound_returns_pool_at_counter [instA, instB] 6 (by decide)).2.trans rfl,
   (tongRound_returns_pool_at_counter [instA, instB] 7 (by decide)).2.trans rfl⟩

/-- C3: for every instance list whose concatenated node pool is empty, every invocation of
the function returned by `TongRound` returns no node and the NoneAvailable error, and
leaves the counter unchanged; so does every run of sequential invocations. -/
theorem tongRound_empty_pool_none_available (services : List Service)
    (h : (services.map Service.Nodes).flatten = []) (c : Nat) :
    TongRound services c
      = { node := none, err := some GoError.selectorErrNoneAvailable, i := c } ∧
    ∀ n, invokeN (TongRound services) n c
      = List.replicate n
          { node := none, err := some GoError.selectorErrNoneAvailable, i := c } := by
  have hlen : (flattenNodes services).length = 0 := by
    rw [flattenNodes_eq_flatten, h]; rfl
  refine ⟨tongRound_empty services c hlen, ?_⟩
  intro n
  induction n with
  | zero => rfl
  | succ n ih => rw [invokeN, tongRound_empty services c hlen, ih, List.replicate_succ]

/-- Witness of C3: an instance list holding one instance without nodes, counter at 9. -/
theorem tongRound_empty_pool_none_available_witness :
    ([instEmpty].map Service.Nodes).flatten = [] ∧
    TongRound [instEmpty] 9
      = { node := none, err := some GoError.selectorErrNoneAvailable, i := 9 } ∧
    ∀ n, invokeN (TongRound [instEmpty]) n 9
      = List.replicate n
          { node := none, err := some GoError.selectorErrNoneAvailable, i := 9 } :=
  ⟨rfl, tongRound_empty_pool_none_available [instEmpty] rfl 9⟩

/-- C10: the counter is shared by all selection functions. For non-empty pools P and Q and
a counter `c < 2^64 - 1`, invoking a function built over P and then one built over Q
returns `P[c mod |P|]` and then `Q[(c+1) mod |Q|]`. Consequently, under strict alternation
over two pools of size 2 started at an even counter, every call on the first pool returns
its node 0 and every call on the second pool returns its node 1. -/
theorem counter_shared_across_pools :
    (∀ (P Q : List Service) (c : Nat)
        (hP : 0 < (flattenNodes P).length) (hQ : 0 < (flattenNodes Q).length),
        c < 2 ^ 64 - 1 →
        (TongRound P c).node
            = some ((flattenNodes P).get ⟨c % (flattenNodes P).length, Nat.mod_lt c hP⟩) ∧
        (TongRound Q (TongRound P c).i).node
            = some ((flattenNodes Q).get
                ⟨(c + 1) % (flattenNodes Q).length, Nat.mod_lt (c + 1) hQ⟩)) ∧
    (∀ (P Q : List Service) (n c : Nat),
        (flattenNodes P).length = 2 → (flattenNodes Q).length = 2 →
        c < 2 ^ 64 → c % 2 = 0 →
        ∀ r ∈ alternate (TongRound P) (TongRound Q) n c,
          r.1.node = (flattenNodes P)[0]? ∧ r.2.node = (flattenNodes Q)[1]?) := by
  refine ⟨?_, fun P Q n c hP hQ hc heven => alternate_pools_of_two P Q hP hQ n c hc heven⟩
  intro P Q c hP hQ hc
  have hsucc : (c + 1) % 2 ^ 64 = c + 1 := Nat.mod_eq_of_lt (by omega)
  rw [tongRound_nonempty P c hP, tongRound_nonempty Q _ hQ]
  simp only [hsucc, and_self]

/-- Witness of C10: pools A++B then A at counter 5 give n3 then n1; three rounds of
alternation between the two-node pools of "orders" instance A and "payments" from counter 0
return n1 on every "orders" call and n2 on every "payments" call. -/
theorem counter_shared_across_pools_witness :
    ((TongRound [instA, instB] 5).node = some n3 ∧
      (TongRound [instA] (TongRound [instA, instB] 5).i).node = some n1) ∧
    (∀ r ∈ alternate (TongRound [instA]) (TongRound [instP]) 3 0,
      r.1.node = some n1 ∧ r.2.node = some n2) :=
  ⟨counter_shared_across_pools.1 [instA, instB] [instA] 5 (by decide) (by decide)
      (by norm_num),
   counter_shared_across_pools.2 [instA] [instP] 3 0 rfl rfl (by norm_num) rfl⟩

/-! ## Theorems on the counter -/

/-- C7: the counter is changed only by an invocation of a round-robin selection function
over a non-empty pool, which sets it to `(old + 1) mod 2^64`; an invocation over an empty
pool and every other operation (constructor, Init, Options, Select, Mark, Reset, Close,
String, building the function with TongRound) leave it unchanged. Hence after any operation
the counter is at least its old value, except for the wrap from `2^64 - 1` to 0. -/
theorem counter_changed_only_by_successful_invocation (op : Op) (w : World)
    (hi : w.i < 2 ^ 64) :
    (∀ services, op = Op.invoke services → flattenNodes services ≠ [] →
        (step op w).1.i = (w.i + 1) % 2 ^ 64 ∧ (step op w).2 ≠ Ret.node none
          (some GoError.selectorErrNoneAvailable)) ∧
    (∀ services, op = Op.invoke services → flattenNodes services = [] →
        (step op w).1.i = w.i ∧
        (step op w).2 = Ret.node none (some GoError.selectorErrNoneAvailable)) ∧
    ((∀ services, op ≠ Op.invoke services) → (step op w).1.i = w.i) ∧
    (w.i ≤ (step op w).1.i ∨ (w.i = 2 ^ 64 - 1 ∧ (step op w).1.i = 0)) := by
  have hinv : ∀ services, flattenNodes services ≠ [] →
      TongRound services w.i
        = { node := (flattenNodes services)[w.i % (flattenNodes services).length]?,
            err := none, i := (w.i + 1) % 2 ^ 64 } := fun services hne =>
    tongRound_nonempty_lookup services w.i (List.length_pos.mpr hne)
  have hemp : ∀ services, flattenNodes services = [] →
      TongRound services w.i
        = { node := none, err := some GoError.selectorErrNoneAvailable, i := w.i } :=
    fun services he => tongRound_empty services w.i (by rw [he]; rfl)
  refine ⟨?_, ?_, ?_, ?_⟩
  · rintro services rfl hne
    simp [step, hinv services hne]
  · rintro services rfl he
    simp [step, hemp services he]
  · intro hop
    cases op <;> first | rfl | exact absurd rfl (hop _)
  · cases op with
    | invoke services =>
      by_cases he : flattenNodes services = []
      · left; simp [step, hemp services he]
      · simp only [step, hinv services he]
        have h64 : w.i < 18446744073709551616 := by simpa using hi
        norm_num
        omega
    | _ => left; exact Nat.le_refl _

/-- Witness of C7: at the largest counter value an invocation over the pool of instances A
and B wraps the counter to 0, and `Select` on the same state leaves the counter alone. -/
theorem counter_changed_only_by_successful_invocation_witness :
    wrapWorld.i < 2 ^ 64 ∧
    (step (Op.invoke [instA, instB]) wrapWorld).1.i = 0 ∧
    (step (Op.select "orders" []) wrapWorld).1.i = 2 ^ 64 - 1 :=
  ⟨by decide,
   ((counter_changed_only_by_successful_invocation (Op.invoke [instA, instB]) wrapWorld
      (by decide)).1 [instA, instB] rfl (by decide)).1.trans (by decide),
   (counter_changed_only_by_successful_invocation (Op.select "orders" []) wrapWorld
      (by decide)).2.2.1 (fun _ h => Op.noConfusion h)⟩

/-! ## Theorems on `Select` -/

theorem applyFilters_foldl (filters : List Filter) (st : List Service × List Applied) :
    filters.foldl
        (fun st filter => (filter st.1, st.2 ++ [Applied.filter st.2.length])) st
      = (filters.foldl (fun services filter => filter services) st.1,
          st.2 ++ (List.range' st.2.length filters.length).map Applied.filter) := by
  induction filters generalizing st with
  | nil => simp
  | cons f rest ih =>
    simp only [List.foldl_cons, ih, List.length_append, List.length_singleton,
      List.length_cons, List.range'_succ, List.map_cons, List.append_assoc,
      List.singleton_append, List.length_nil, Nat.zero_add]

theorem applyFilters_eq (filters : List Filter) (services : List Service) :
    applyFilters filters services
      = (filters.foldl (fun services filter => filter services) services,
          (List.range filters.length).map Applied.filter) := by
  simp [applyFilters, applyFilters_foldl, List.range_eq_range']

theorem select_of_lookup_ok (c : RoundRobin) (service : String) (opts : List SelectOption)
    (services : List Service) (h : c.rc.GetService service = some (Except.ok services)) :
    c.Select service opts
      = if ((c.selectOptions opts).Filters.foldl
              (fun services filter => filter services) services).length = 0 then
          some { next := none, err := some GoError.selectorErrNoneAvailable,
                 applied := (List.range (c.selectOptions opts).Filters.length).map
                   Applied.filter }
        else
          some { next := some ((c.selectOptions opts).Strategy
                   ((c.selectOptions opts).Filters.foldl
                     (fun services filter => filter services) services)),
                 err := none,
                 applied := (List.range (c.selectOptions opts).Filters.length).map
                   Applied.filter ++ [Applied.strategy] } := by
  simp only [RoundRobin.Select, h, applyFilters_eq]

theorem foldl_filters_nil (filters : List Filter) (h : ∀ f ∈ filters, f [] = []) :
    filters.foldl (fun services filter => filter services) [] = [] := by
  induction filters with
  | nil => rfl
  | cons f rest ih =>
    rw [List.foldl_cons, h f (List.mem_cons_self f rest)]
    exact ih (fun g hg => h g (List.mem_cons_of_mem f hg))

/-- C4: when the cache lookup fails with `err`, `Select` returns no selection function and
applies neither a filter nor a strategy; the returned error is the selector's NotFound
sentinel if `err` is or wraps the registry's not-found sentinel, and `err` itself
otherwise. -/
theorem select_lookup_failure (c : RoundRobin) (service : String)
    (opts : List SelectOption) (err : GoError)
    (h : c.rc.GetService service = some (Except.error err)) :
    ∃ r, c.Select service opts = some r ∧ r.next = none ∧ r.applied = [] ∧
      (errorsIs err GoError.registryErrNotFound = true →
        r.err = some GoError.selectorErrNotFound) ∧
      (errorsIs err GoError.registryErrNotFound = false → r.err = some err) := by
  by_cases hnf : errorsIs err GoError.registryErrNotFound = true
  · refine ⟨{ next := none, err := some GoError.selectorErrNotFound, applied := [] },
      ?_, rfl, rfl, fun _ => rfl, fun hf => ?_⟩
    · simp only [RoundRobin.Select, h, hnf, if_true]
    · rw [hnf] at hf; exact absurd hf (by decide)
  · refine ⟨{ next := none, err := some err, applied := [] },
      ?_, rfl, rfl, fun ht => absurd ht hnf, fun _ => rfl⟩
    simp only [RoundRobin.Select, h, hnf]
    rfl

/-- Witness of C4: on the scenario selector an unregistered name, whose lookup error wraps
the not-found sentinel, yields NotFound, and the name "down" yields the transport error
unchanged, in both cases with a filter among the per-call options. -/
theorem select_lookup_failure_witness :
    (∃ r, scenarioSelector.Select "missing" [WithFilter [filterVersionB]] = some r ∧
      r.next = none ∧ r.applied = [] ∧ r.err = some GoError.selectorErrNotFound) ∧
    (∃ r, scenarioSelector.Select "down" [WithFilter [filterVersionB]] = some r ∧
      r.next = none ∧ r.applied = [] ∧
      r.err = some (GoError.other "connection refused")) := by
  constructor
  · obtain ⟨r, hr, hn, ha, ht, _⟩ :=
      select_lookup_failure scenarioSelector "missing" [WithFilter [filterVersionB]]
        (GoError.wrap "lookup" GoError.registryErrNotFound) rfl
    exact ⟨r, hr, hn, ha, ht (by decide)⟩
  · obtain ⟨r, hr, hn, ha, _, hf⟩ :=
      select_lookup_failure scenarioSelector "down" [WithFilter [filterVersionB]]
        (GoError.other "connection refused") rfl
    exact ⟨r, hr, hn, ha, hf (by decide)⟩

theorem cache_getService_ok_ne_nil (rc : Cache) (service : String)
    (services : List Service) (h : rc.GetService service = some (Except.ok services)) :
    services ≠ [] := by
  unfold Cache.GetService at h
  split at h
  · cases h
  · cases h
  · split at h
    · cases h
    · rename_i l _ hlen
      have hl : l = services := by
        injection h with h
        injection h
      subst hl
      intro hnil
      exact hlen (by rw [hnil]; rfl)

theorem cache_getService_zero_instances (rc : Cache) (service : String) (r0 : Registry)
    (hreg : rc.Registry = some r0) (hvalid : rc.isValid service = false)
    (hans : r0.GetService service = Except.ok []) :
    rc.GetService service = some (Except.error GoError.registryErrNotFound) := by
  simp [Cache.GetService, Cache.get, hvalid, hreg, hans]

theorem cache_getService_stale (rc : Cache) (service : String) (r0 : Registry)
    (err : GoError) (hreg : rc.Registry = some r0) (hvalid : rc.isValid service = false)
    (hans : r0.GetService service = Except.error err) (hentry : rc.cache service ≠ []) :
    rc.GetService service = some (Except.ok (rc.cache service)) := by
  have hlen : 0 < (rc.cache service).length := List.length_pos.mpr hentry
  have hne : ¬ (rc.cache service).length = 0 := by omega
  simp [Cache.GetService, Cache.get, hvalid, hreg, hans, hlen, hne]

theorem cache_getService_valid (rc : Cache) (service : String)
    (hvalid : rc.isValid service = true) :
    rc.GetService service = some (Except.ok (rc.cache service)) := by
  have hne : ¬ (rc.cache service).length = 0 := by
    intro h0
    simp [Cache.isValid, h0] at hvalid
  simp [Cache.GetService, Cache.get, hvalid, hne]

/-- C5, as stated, is false. The registry answers "billing" with zero instances, yet
`Select` does not return NoneAvailable: the cache turns the empty list into the registry's
not-found sentinel and `Select` returns NotFound. And "ghost", a known service whose only
instance has zero nodes, selected with an override of the strategy, gives the caller a
function whose invocation returns no error at all. -/
theorem select_zero_instances_is_not_found :
    scenarioRegistry.GetService "billing" = Except.ok [] ∧
    (¬ ∃ r, scenarioSelector.Select "billing" [] = some r ∧
      r.err = some GoError.selectorErrNoneAvailable) ∧
    (∃ r, scenarioSelector.Select "billing" [] = some r ∧
      r.err = some GoError.selectorErrNotFound ∧ r.next = none) ∧
    scenarioRegistry.GetService "ghost" = Except.ok [instEmpty] ∧
    (∃ r next, scenarioSelector.Select "ghost" [WithStrategy FirstNode] = some r ∧
      r.err = none ∧ r.next = some next ∧ (next 0).err = none ∧ (next 0).node = none) := by
  have hsel : scenarioSelector.Select "billing" []
      = some { next := none, err := some GoError.selectorErrNotFound, applied := [] } := rfl
  refine ⟨rfl, ?_, ⟨_, hsel, rfl, rfl⟩, rfl, ⟨_, _, rfl, rfl, rfl, rfl, rfl⟩⟩
  rintro ⟨r, hr, herr⟩
  rw [hsel] at hr
  injection hr with hr
  subst hr
  exact absurd herr (by decide)

/-- C5, amended: when the lookup succeeds, the instance list it hands over is never empty,
and `Select` returns the NoneAvailable error, and no selection function, exactly when the
instance list left by the filters is empty. A registry answer with zero instances (asked
because the cache holds no valid entry) makes `Select` return NotFound with no selection
function. When the lookup succeeds, the round-robin strategy is in force and the filtered
instances hold no node at all, the caller obtains NoneAvailable either from `Select` or
from every invocation of the function it returned. -/
theorem select_none_available_iff (c : RoundRobin) (service : String)
    (opts : List SelectOption) :
    (∀ services, c.rc.GetService service = some (Except.ok services) →
      services ≠ [] ∧
      ∃ r, c.Select service opts = some r ∧
        (r.err = some GoError.selectorErrNoneAvailable ↔
          (c.selectOptions opts).Filters.foldl
            (fun services filter => filter services) services = []) ∧
        (r.next = none ↔
          (c.selectOptions opts).Filters.foldl
            (fun services filter => filter services) services = []) ∧
        (r.err = none ↔
          (c.selectOptions opts).Filters.foldl
            (fun services filter => filter services) services ≠ [])) ∧
    (∀ r0, c.rc.Registry = some r0 → c.rc.isValid service = false →
      r0.GetService service = Except.ok [] →
      ∃ r, c.Select service opts = some r ∧
        r.err = some GoError.selectorErrNotFound ∧ r.next = none ∧ r.applied = []) ∧
    (∀ services, c.rc.GetService service = some (Except.ok services) →
      (c.selectOptions opts).Strategy = TongRound →
      flattenNodes ((c.selectOptions opts).Filters.foldl
        (fun services filter => filter services) services) = [] →
      ∃ r, c.Select service opts = some r ∧
        ((r.err = some GoError.selectorErrNoneAvailable ∧ r.next = none) ∨
          (r.err = none ∧ ∃ next, r.next = some next ∧ ∀ i, next i
            = { node := none, err := some GoError.selectorErrNoneAvailable, i := i }))) := by
  refine ⟨fun services h => ⟨cache_getService_ok_ne_nil c.rc service services h, ?_⟩,
    fun r0 hreg hvalid hans => ?_, fun services h hs hpool => ?_⟩
  · have hsel := select_of_lookup_ok c service opts services h
    by_cases hempty : (c.selectOptions opts).Filters.foldl
        (fun services filter => filter services) services = []
    · have hlen : ((c.selectOptions opts).Filters.foldl
          (fun services filter => filter services) services).length = 0 := by
        rw [hempty]; rfl
      rw [if_pos hlen] at hsel
      exact ⟨_, hsel, by simp [hempty], by simp [hempty], by simp [hempty]⟩
    · have hlen : ¬ ((c.selectOptions opts).Filters.foldl
          (fun services filter => filter services) services).length = 0 := by
        rw [List.length_eq_zero]; exact hempty
      rw [if_neg hlen] at hsel
      exact ⟨_, hsel, by simp [hempty], by simp [hempty], by simp [hempty]⟩
  · have hget := cache_getService_zero_instances c.rc service r0 hreg hvalid hans
    refine ⟨{ next := none, err := some GoError.selectorErrNotFound, applied := [] },
      ?_, rfl, rfl, rfl⟩
    simp [RoundRobin.Select, hget, errorsIs]
  · have hsel := select_of_lookup_ok c service opts services h
    by_cases hempty : (c.selectOptions opts).Filters.foldl
        (fun services filter => filter services) services = []
    · have hlen : ((c.selectOptions opts).Filters.foldl
          (fun services filter => filter services) services).length = 0 := by
        rw [hempty]; rfl
      rw [if_pos hlen] at hsel
      exact ⟨_, hsel, Or.inl ⟨rfl, rfl⟩⟩
    · have hlen : ¬ ((c.selectOptions opts).Filters.foldl
          (fun services filter => filter services) services).length = 0 := by
        rw [List.length_eq_zero]; exact hempty
      rw [if_neg hlen] at hsel
      refine ⟨_, hsel, Or.inr ⟨rfl, _, rfl, fun i => ?_⟩⟩
      rw [hs]
      exact tongRound_empty _ i (by rw [hpool]; rfl)

/-- Witness of C5 amended, on the scenario selector: "ghost" with a filter that removes its
only instance yields NoneAvailable from `Select`; "billing", answered with zero instances,
yields NotFound; "ghost" without option yields a function whose every invocation returns
NoneAvailable. -/
theorem select_none_available_iff_witness :
    (∃ r, scenarioSelector.Select "ghost" [WithFilter [filterVersionB]] = some r ∧
      r.err = some GoError.selectorErrNoneAvailable ∧ r.next = none) ∧
    (∃ r, scenarioSelector.Select "billing" [] = some r ∧
      r.err = some GoError.selectorErrNotFound ∧ r.next = none ∧ r.applied = []) ∧
    (∃ r, scenarioSelector.Select "ghost" [] = some r ∧
      ((r.err = some GoError.selectorErrNoneAvailable ∧ r.next = none) ∨
        (r.err = none ∧ ∃ next, r.next = some next ∧ ∀ i, next i
          = { node := none, err := some GoError.selectorErrNoneAvailable, i := i }))) := by
  refine ⟨?_, ?_, ?_⟩
  · obtain ⟨_, r, hr, herr, hnext, _⟩ :=
      (select_none_available_iff scenarioSelector "ghost" [WithFilter [filterVersionB]]).1
        [instEmpty] rfl
    exact ⟨r, hr, herr.mpr rfl, hnext.mpr rfl⟩
  · exact (select_none_available_iff scenarioSelector "billing" []).2.1
      scenarioRegistry rfl rfl rfl
  · exact (select_none_available_iff scenarioSelector "ghost" []).2.2
      [instEmpty] rfl rfl rfl

theorem foldl_withFilter (fs : List Filter) (o : SelectOptions) :
    (fs.map (fun f => WithFilter [f])).foldl (fun sopts opt => opt sopts) o
      = { Filters := o.Filters ++ fs, Strategy := o.Strategy } := by
  induction fs generalizing o with
  | nil => simp
  | cons f rest ih => simp [ih, WithFilter]

/-- C6: when the lookup succeeds and the filtered list is non-empty, `Select` returns, with
no error, the strategy of the per-call options applied to the instance list obtained by
applying the per-call filters left to right; the per-call options are the configured
strategy with no filter, mutated by the per-call options in order. So with no per-call
option the configured strategy is used, and a strategy override followed only by added
filters wins, the added filters being appended in the order given. -/
theorem select_applies_filters_then_strategy (c : RoundRobin) (service : String)
    (opts : List SelectOption) (services : List Service)
    (h : c.rc.GetService service = some (Except.ok services))
    (hne : (c.selectOptions opts).Filters.foldl
      (fun services filter => filter services) services ≠ []) :
    c.Select service opts
      = some { next := some ((c.selectOptions opts).Strategy
                 ((c.selectOptions opts).Filters.foldl
                   (fun services filter => filter services) services)),
               err := none,
               applied := (List.range (c.selectOptions opts).Filters.length).map
                 Applied.filter ++ [Applied.strategy] } ∧
    c.selectOptions opts
      = opts.foldl (fun sopts opt => opt sopts)
          { Filters := [], Strategy := c.so.Strategy } ∧
    c.selectOptions [] = { Filters := [], Strategy := c.so.Strategy } ∧
    (∀ (pre : List SelectOption) (S : Strategy) (fs : List Filter),
      c.selectOptions (pre ++ WithStrategy S :: fs.map (fun f => WithFilter [f]))
        = { Filters := (c.selectOptions pre).Filters ++ fs, Strategy := S }) := by
  have hsel := select_of_lookup_ok c service opts services h
  have hlen : ¬ ((c.selectOptions opts).Filters.foldl
      (fun services filter => filter services) services).length = 0 := by
    rw [List.length_eq_zero]; exact hne
  rw [if_neg hlen] at hsel
  refine ⟨hsel, rfl, rfl, fun pre S fs => ?_⟩
  simp only [RoundRobin.selectOptions, List.foldl_append, List.foldl_cons, foldl_withFilter,
    WithStrategy]

/-- Witness of C6: selecting "orders" with a filter keeping version "B" and then an
override of the strategy applies filter 0 and then the overriding strategy to `[instB]`. -/
theorem select_applies_filters_then_strategy_witness :
    scenarioSelector.rc.GetService "orders" = some (Except.ok [instA, instB]) ∧
    scenarioSelector.Select "orders" [WithFilter [filterVersionB], WithStrategy FirstNode]
      = some { next := some (FirstNode [instB]), err := none,
               applied := [Applied.filter 0, Applied.strategy] } :=
  ⟨rfl, (select_applies_filters_then_strategy scenarioSelector "orders"
    [WithFilter [filterVersionB], WithStrategy FirstNode] [instA, instB] rfl
    (by decide)).1.trans rfl⟩

/-! ## Theorems on construction and `Init` -/

/-- C9: `NewRoundRobinSelector` yields a selector whose configuration is the options applied
left to right to the initial configuration with the round-robin strategy, with the default
registry substituted exactly when no registry is set after all options; a later option
overrides an earlier one on the same field; `Init` applies its options left to right to the
current configuration and returns no error. -/
theorem newRoundRobinSelector_applies_options (DefaultRegistry : Registry) :
    (∀ opts : List SelectorOption,
      (NewRoundRobinSelector DefaultRegistry opts).so
        = { Registry := some ((opts.foldl (fun (so : Options) (opt : SelectorOption) => opt so)
                { Registry := none, Strategy := TongRound, Context := none }).Registry.getD
                  DefaultRegistry),
            Strategy := (opts.foldl (fun (so : Options) (opt : SelectorOption) => opt so)
                { Registry := none, Strategy := TongRound, Context := none }).Strategy,
            Context := (opts.foldl (fun (so : Options) (opt : SelectorOption) => opt so)
                { Registry := none, Strategy := TongRound, Context := none }).Context }) ∧
    (∀ (opts : List SelectorOption) (S : Strategy),
      (NewRoundRobinSelector DefaultRegistry (opts ++ [SetStrategy S])).so.Strategy = S) ∧
    (∀ (opts : List SelectorOption) (r : Registry),
      (NewRoundRobinSelector DefaultRegistry (opts ++ [SetRegistry r])).so.Registry
        = some r) ∧
    (NewRoundRobinSelector DefaultRegistry []).so
      = { Registry := some DefaultRegistry, Strategy := TongRound, Context := none } ∧
    (∀ (c : RoundRobin) (opts : List SelectorOption),
      (c.Init opts).1.so = opts.foldl (fun (so : Options) (opt : SelectorOption) => opt so) c.so ∧
      (c.Init opts).2 = none) := by
  have hso : ∀ opts : List SelectorOption,
      (NewRoundRobinSelector DefaultRegistry opts).so
        = { Registry := some ((opts.foldl (fun (so : Options) (opt : SelectorOption) => opt so)
                { Registry := none, Strategy := TongRound, Context := none }).Registry.getD
                  DefaultRegistry),
            Strategy := (opts.foldl (fun (so : Options) (opt : SelectorOption) => opt so)
                { Registry := none, Strategy := TongRound, Context := none }).Strategy,
            Context := (opts.foldl (fun (so : Options) (opt : SelectorOption) => opt so)
                { Registry := none, Strategy := TongRound, Context := none }).Context } := by
    intro opts
    simp only [NewRoundRobinSelector]
    generalize opts.foldl (fun (so : Options) (opt : SelectorOption) => opt so)
        ({ Registry := none, Strategy := TongRound, Context := none } : Options) = folded
    obtain ⟨reg, strategy, ctx⟩ := folded
    cases reg with
    | none => simp
    | some r => simp
  refine ⟨hso, fun opts S => ?_, fun opts r => ?_, ?_, fun c opts => ⟨rfl, rfl⟩⟩
  · rw [hso]; simp [SetStrategy]
  · rw [hso]; simp [SetRegistry]
  · rw [hso]; rfl

/-- Witness of C9: with `scenarioRegistry` as the default, two registry options in a row
leave the later one configured, and no option leaves the default registry configured. -/
theorem newRoundRobinSelector_applies_options_witness :
    (NewRoundRobinSelector scenarioRegistry
        ([SetRegistry scenarioRegistry] ++ [SetRegistry otherRegistry])).so.Registry
      = some otherRegistry ∧
    (NewRoundRobinSelector scenarioRegistry []).so
      = { Registry := some scenarioRegistry, Strategy := TongRound, Context := none } :=
  ⟨(newRoundRobinSelector_applies_options scenarioRegistry).2.2.1
      [SetRegistry scenarioRegistry] otherRegistry,
   (newRoundRobinSelector_applies_options scenarioRegistry).2.2.2.1⟩

end Script
